import Mathlib

/-!
Shallow embedding of the golden-rhombohedron mesh generator
(`src/components/Rhombohedron.tsx`) and proofs about it.

The source computes, once, a family of scalar constants (golden ratio,
the rhombus angles, the diagonal half-lengths), the eight vertices of
each of the two golden rhombohedra (acute and obtuse), and triangulates
the six rhombic faces into flat coordinate buffers, which the `Shape`
component scales uniformly and pairs with a color and position offset.
Floating-point doubles are modelled as real numbers.
-/

noncomputable section

open Real

/-- A 3-component vertex, the `[number, number, number]` of the source. -/
structure V3 where
  x : ℝ
  y : ℝ
  z : ℝ
deriving DecidableEq

/-- `PHI = (1 + Math.sqrt(5)) / 2` -/
def PHI : ℝ := (1 + Real.sqrt 5) / 2

/-- `THETA = Math.atan(PHI)` -/
def THETA : ℝ := Real.arctan PHI

/-- `GAMMA = Math.PI / 2 - THETA` -/
def GAMMA : ℝ := Real.pi / 2 - THETA

/-- `ALPHA = GAMMA * 2` -/
def ALPHA : ℝ := GAMMA * 2

/-- `Y = Math.sin(THETA)` -/
def Y : ℝ := Real.sin THETA

/-- `X = Math.cos(THETA)` -/
def X : ℝ := Real.cos THETA

/-- `BE = Math.cos(ALPHA)` -/
def BE : ℝ := Real.cos ALPHA

/-- `BT = BE / Math.cos(GAMMA)` (acute construction). -/
def BT : ℝ := BE / Real.cos GAMMA

/-- The `{ H, Q }` record shape used for the `ACUTE` and `OBTUSE` constants. -/
structure HQ where
  H : ℝ
  Q : ℝ

/-- `ACUTE = { H: Math.sqrt(1 - BT * BT), Q: BT / 2 }` -/
def ACUTE : HQ := ⟨Real.sqrt (1 - BT * BT), BT / 2⟩

/-- `AT = BE / Y` (obtuse construction). -/
def AT : ℝ := BE / Y

/-- `OBTUSE = { H: Math.sqrt(1 - AT * AT), Q: X - AT / 2 }` -/
def OBTUSE : HQ := ⟨Real.sqrt (1 - AT * AT), X - AT / 2⟩

/-- `ACUTE_VERTICES`, the 8-element vertex array of the acute solid,
in source order A, B, C, D, S, T, U, V. -/
def ACUTE_VERTICES : List V3 := [
  ⟨ X, ACUTE.Q,     -ACUTE.H/2⟩,  -- A: 0
  ⟨ 0, ACUTE.Q + Y, -ACUTE.H/2⟩,  -- B: 1
  ⟨-X, ACUTE.Q,     -ACUTE.H/2⟩,  -- C: 2
  ⟨ 0, ACUTE.Q - Y, -ACUTE.H/2⟩,  -- D: 3
  ⟨ X, -ACUTE.Q,     ACUTE.H/2⟩,  -- S: 4
  ⟨ 0, -ACUTE.Q + Y, ACUTE.H/2⟩,  -- T: 5
  ⟨-X, -ACUTE.Q,     ACUTE.H/2⟩,  -- U: 6
  ⟨ 0, -ACUTE.Q - Y, ACUTE.H/2⟩]  -- V: 7

/-- `OBTUSE_VERTICES`, the 8-element vertex array of the obtuse solid,
in source order A, B, C, D, T, U, V, S. -/
def OBTUSE_VERTICES : List V3 := [
  ⟨ OBTUSE.Q + X, 0, -OBTUSE.H/2⟩,  -- A: 0
  ⟨ OBTUSE.Q,     Y, -OBTUSE.H/2⟩,  -- B: 1
  ⟨ OBTUSE.Q - X, 0, -OBTUSE.H/2⟩,  -- C: 2
  ⟨ OBTUSE.Q,    -Y, -OBTUSE.H/2⟩,  -- D: 3
  ⟨-OBTUSE.Q + X, 0,  OBTUSE.H/2⟩,  -- T: 4
  ⟨-OBTUSE.Q,     Y,  OBTUSE.H/2⟩,  -- U: 5
  ⟨-OBTUSE.Q - X, 0,  OBTUSE.H/2⟩,  -- V: 6
  ⟨-OBTUSE.Q,    -Y,  OBTUSE.H/2⟩]  -- S: 7

/-- Indexing `v[i]` into an 8-element vertex array. -/
def vAt (l : List V3) (i : ℕ) : V3 := l.getD i ⟨0, 0, 0⟩

/-- The three coordinates a vertex spread (`...v[i]`) contributes to a
face's flat buffer. -/
def coords (v : V3) : List ℝ := [v.x, v.y, v.z]

/-- The acute `faceArray` vertex-index pattern: face `j` of the acute
solid is the spread `[...v[i], ...]` over these six indices
(two triangles of three vertices). -/
def acuteFaceIndices : List (List ℕ) := [
  [1, 0, 2, 3, 2, 0],
  [1, 2, 5, 6, 5, 2],
  [1, 5, 0, 4, 0, 5],
  [7, 3, 4, 0, 4, 3],
  [7, 6, 3, 2, 3, 6],
  [7, 4, 6, 5, 6, 4]]

/-- The obtuse `faceArray` vertex-index pattern. -/
def obtuseFaceIndices : List (List ℕ) := [
  [2, 1, 0, 2, 0, 3],
  [2, 5, 1, 2, 6, 5],
  [3, 7, 2, 6, 2, 7],
  [4, 3, 0, 4, 7, 3],
  [4, 1, 5, 4, 0, 1],
  [4, 5, 6, 4, 6, 7]]

/-- `createFaces`: selects the vertex array and face table by comparing
the selector string against `"ACUTE"` (any other value selects the
obtuse data) and flattens each face's six vertex spreads into a buffer
of 18 reals. -/
def createFaces (shape : String) : List (List ℝ) :=
  let isAcute := shape = "ACUTE"
  let v := if isAcute then ACUTE_VERTICES else OBTUSE_VERTICES
  let faceArray := if isAcute then acuteFaceIndices else obtuseFaceIndices
  faceArray.map (fun f => (f.map (fun i => coords (vAt v i))).flatten)

/-- The per-face props handed to the renderer: position offset, flat
vertex buffer, color. -/
structure FaceProps where
  position : V3
  faces : List ℝ
  color : ℝ

/-- The indexed `.map((faces, ii) => <Face .../>)` of the `Shape`
component: pairs the `ii`-th scaled buffer with `colors[ii]` and the
position offset. -/
def attachFaces (colors : List ℝ) (position : V3) : ℕ → List (List ℝ) → List FaceProps
  | _, [] => []
  | ii, f :: rest => ⟨position, f, colors.getD ii 0⟩ :: attachFaces colors position (ii + 1) rest

/-- The `Shape` component's mesh assembly: scale every coordinate of
every face by `scale`, then attach color and position. -/
def Shape (colors : List ℝ) (position : V3) (scale : ℝ) (shape : String) : List FaceProps :=
  attachFaces colors position 0
    ((createFaces shape).map (fun face => face.map (fun c => c * scale)))

/-! ### Geometric measurement definitions (used to state the claims) -/

/-- Componentwise difference of vertices. -/
def vsub (a b : V3) : V3 := ⟨a.x - b.x, a.y - b.y, a.z - b.z⟩

/-- Cross product. -/
def cross (a b : V3) : V3 :=
  ⟨a.y * b.z - a.z * b.y, a.z * b.x - a.x * b.z, a.x * b.y - a.y * b.x⟩

/-- Dot product. -/
def dot (a b : V3) : ℝ := a.x * b.x + a.y * b.y + a.z * b.z

/-- Right-hand-rule normal of the triangle with vertices `p, q, r`,
in that winding order. -/
def triNormal (p q r : V3) : V3 := cross (vsub q p) (vsub r p)

/-- Centroid (componentwise mean) of a list of points. -/
def centroid (l : List V3) : V3 :=
  ⟨(l.map V3.x).sum / l.length, (l.map V3.y).sum / l.length, (l.map V3.z).sum / l.length⟩

/-- Centroid of the face whose index list is `f`, as the mean of the six
listed triangle-vertex positions. -/
def faceCentroid (v : List V3) (f : List ℕ) : V3 := centroid (f.map (vAt v))

/-- Centroid of a solid given its vertex list. -/
def solidCentroid (v : List V3) : V3 := centroid v

/-- Face `j` of a face table. -/
def faceOf (table : List (List ℕ)) (j : ℕ) : List ℕ := table.getD j []

/-- Triangle `t` (0 or 1) of a face's six-entry index list. -/
def triAt (v : List V3) (f : List ℕ) (t : ℕ) : V3 × V3 × V3 :=
  (vAt v (f.getD (3 * t) 0), vAt v (f.getD (3 * t + 1) 0), vAt v (f.getD (3 * t + 2) 0))

/-- Triangle `t` of face `f` winds outward: its right-hand-rule normal
has strictly positive dot product with the vector from the solid's
centroid to the face's centroid. -/
def outwardTri (v : List V3) (f : List ℕ) (t : ℕ) : Prop :=
  0 < dot (triNormal (triAt v f t).1 (triAt v f t).2.1 (triAt v f t).2.2)
        (vsub (faceCentroid v f) (solidCentroid v))

/-- Euclidean distance between two vertices. -/
def dist3 (a b : V3) : ℝ :=
  Real.sqrt ((a.x - b.x) ^ 2 + (a.y - b.y) ^ 2 + (a.z - b.z) ^ 2)

/-- The unordered pairs of vertex indices spanned by the two triangles
of a face's index list (each triangle's three sides). -/
def triSides (f : List ℕ) : List (ℕ × ℕ) :=
  [(f.getD 0 0, f.getD 1 0), (f.getD 1 0, f.getD 2 0), (f.getD 0 0, f.getD 2 0),
   (f.getD 3 0, f.getD 4 0), (f.getD 4 0, f.getD 5 0), (f.getD 3 0, f.getD 5 0)]

/-- Does pair `p` occur (in either orientation) as a triangle side of
face `f`? -/
def sideMem (p : ℕ × ℕ) (f : List ℕ) : Bool :=
  (triSides f).any (fun q => q == p || q == (p.2, p.1))

/-- All index pairs `(i, j)` with `i < j < 8`. -/
def allPairs : List (ℕ × ℕ) :=
  (List.range 8).flatMap (fun i => ((List.range 8).filter (fun j => i < j)).map (fun j => (i, j)))

/-- The edges of the solid described by a face table: pairs of vertex
indices that occur as a triangle side of at least two distinct faces
(a triangle side lying on only one face is a rhombus diagonal). -/
def edgesOf (table : List (List ℕ)) : List (ℕ × ℕ) :=
  allPairs.filter (fun p => 2 ≤ (table.filter (fun f => sideMem p f)).length)

/-! ### Spec-side descriptions for refinement claims -/

/-- The acute vertex layout exactly as the spec states it:
`BT = BE / cos(GAMMA)`, `H = sqrt(1 - BT^2)`, `Q = BT / 2`, vertices
A, B, C, D, S, T, U, V. -/
def specAcuteLayout : List V3 :=
  let bt := BE / Real.cos GAMMA
  let h := Real.sqrt (1 - bt ^ 2)
  let q := bt / 2
  [⟨X, q, -(h / 2)⟩, ⟨0, q + Y, -(h / 2)⟩, ⟨-X, q, -(h / 2)⟩, ⟨0, q - Y, -(h / 2)⟩,
   ⟨X, -q, h / 2⟩, ⟨0, -q + Y, h / 2⟩, ⟨-X, -q, h / 2⟩, ⟨0, -q - Y, h / 2⟩]

/-- The obtuse vertex layout exactly as the spec states it:
`AT = BE / Y`, `H = sqrt(1 - AT^2)`, `Q = X - AT/2`, vertices
A, B, C, D, T, U, V, S. -/
def specObtuseLayout : List V3 :=
  let at' := BE / Y
  let h := Real.sqrt (1 - at' ^ 2)
  let q := X - at' / 2
  [⟨q + X, 0, -(h / 2)⟩, ⟨q, Y, -(h / 2)⟩, ⟨q - X, 0, -(h / 2)⟩, ⟨q, -Y, -(h / 2)⟩,
   ⟨-q + X, 0, h / 2⟩, ⟨-q, Y, h / 2⟩, ⟨-q - X, 0, h / 2⟩, ⟨-q, -Y, h / 2⟩]

/-- The spec's acute face table: each face as two vertex-index triples. -/
def specAcuteTriples : List ((ℕ × ℕ × ℕ) × (ℕ × ℕ × ℕ)) :=
  [((1, 0, 2), (3, 2, 0)), ((1, 2, 5), (6, 5, 2)), ((1, 5, 0), (4, 0, 5)),
   ((7, 3, 4), (0, 4, 3)), ((7, 6, 3), (2, 3, 6)), ((7, 4, 6), (5, 6, 4))]

/-- The spec's obtuse face table. -/
def specObtuseTriples : List ((ℕ × ℕ × ℕ) × (ℕ × ℕ × ℕ)) :=
  [((2, 1, 0), (2, 0, 3)), ((2, 5, 1), (2, 6, 5)), ((3, 7, 2), (6, 2, 7)),
   ((4, 3, 0), (4, 7, 3)), ((4, 1, 5), (4, 0, 1)), ((4, 5, 6), (4, 6, 7))]

/-- Flatten a table of vertex-index triples into face buffers over a
vertex array. -/
def triplesFlatten (v : List V3) (ts : List ((ℕ × ℕ × ℕ) × (ℕ × ℕ × ℕ))) : List (List ℝ) :=
  ts.map (fun t =>
    coords (vAt v t.1.1) ++ coords (vAt v t.1.2.1) ++ coords (vAt v t.1.2.2) ++
    coords (vAt v t.2.1) ++ coords (vAt v t.2.2.1) ++ coords (vAt v t.2.2.2))


/-! ### Algebraic facts about the derived constants -/

lemma sqrt5_sq : Real.sqrt 5 ^ 2 = 5 := Real.sq_sqrt (by norm_num)

lemma PHI_pos : 0 < PHI := by
  unfold PHI
  have h := Real.sqrt_nonneg 5
  linarith

/-- The defining identity of the golden ratio. -/
lemma PHI_sq : PHI ^ 2 = PHI + 1 := by
  unfold PHI
  linear_combination (1 / 4 : ℝ) * sqrt5_sq

lemma X_pos : 0 < X := Real.cos_arctan_pos PHI

lemma Y_eq_phiX : Y = PHI * X := by
  unfold Y X THETA
  rw [Real.sin_arctan, Real.cos_arctan]
  ring

lemma Y_pos : 0 < Y := by
  rw [Y_eq_phiX]; exact mul_pos PHI_pos X_pos

lemma pythXY : X ^ 2 + Y ^ 2 = 1 := by
  unfold X Y
  rw [add_comm]
  exact Real.sin_sq_add_cos_sq THETA

lemma cos_GAMMA_eq : Real.cos GAMMA = Y := Real.cos_pi_div_two_sub THETA

/-- `BE = cos(2·(π/2 − θ)) = 2 sin²θ − 1`, which by the golden-ratio
identity equals `cosθ · sinθ`. -/
lemma BE_eq : BE = X * Y := by
  have h1 : BE = 2 * Y ^ 2 - 1 := by
    unfold BE ALPHA
    rw [mul_comm GAMMA 2, Real.cos_two_mul, cos_GAMMA_eq]
  rw [h1]
  linear_combination pythXY + (Y + PHI * X - X) * Y_eq_phiX + X ^ 2 * PHI_sq

/-- In the acute construction the projected length `BT` is exactly `cos THETA`. -/
lemma BT_eq : BT = X := by
  unfold BT
  rw [BE_eq, cos_GAMMA_eq, mul_div_assoc, div_self Y_pos.ne', mul_one]

/-- In the obtuse construction the projected length `AT` is exactly `cos THETA`. -/
lemma AT_eq : AT = X := by
  unfold AT
  rw [BE_eq, mul_div_assoc, div_self Y_pos.ne', mul_one]

lemma ACUTE_H_eq : ACUTE.H = Y := by
  show Real.sqrt (1 - BT * BT) = Y
  rw [BT_eq, show (1 : ℝ) - X * X = Y ^ 2 by linear_combination (-1 : ℝ) * pythXY]
  exact Real.sqrt_sq Y_pos.le

lemma ACUTE_Q_eq : ACUTE.Q = X / 2 := by
  show BT / 2 = X / 2
  rw [BT_eq]

lemma OBTUSE_H_eq : OBTUSE.H = Y := by
  show Real.sqrt (1 - AT * AT) = Y
  rw [AT_eq, show (1 : ℝ) - X * X = Y ^ 2 by linear_combination (-1 : ℝ) * pythXY]
  exact Real.sqrt_sq Y_pos.le

lemma OBTUSE_Q_eq : OBTUSE.Q = X / 2 := by
  show X - AT / 2 = X / 2
  rw [AT_eq]; ring

/-! ### Numeric bounds -/

lemma two_PHI : 2 * PHI = 1 + Real.sqrt 5 := by
  unfold PHI; ring

lemma sqrt5_gt : (2.236 : ℝ) < Real.sqrt 5 := by
  nlinarith [sqrt5_sq, Real.sqrt_nonneg 5]

lemma sqrt5_lt : Real.sqrt 5 < 2.2361 := by
  nlinarith [sqrt5_sq, Real.sqrt_nonneg 5]

/-- `cosθ² · (φ + 2) = 1`. -/
lemma X2_phi : X ^ 2 * (PHI + 2) = 1 := by
  linear_combination pythXY - (Y + PHI * X) * Y_eq_phiX - X ^ 2 * PHI_sq

/-- `sinθ² · (φ + 2) = φ + 1`. -/
lemma Y2_phi : Y ^ 2 * (PHI + 2) = PHI + 1 := by
  linear_combination (PHI + 2) * (Y + PHI * X) * Y_eq_phiX + PHI ^ 2 * X2_phi + PHI_sq

lemma Y_sq_lo : (0.7235 : ℝ) ≤ Y ^ 2 := by
  nlinarith [Y2_phi, sqrt5_gt, two_PHI, Real.sqrt_nonneg 5]

lemma Y_sq_hi : Y ^ 2 ≤ (0.7237 : ℝ) := by
  nlinarith [Y2_phi, sqrt5_gt, sqrt5_lt, two_PHI]

lemma Y_lo : (0.8497 : ℝ) ≤ Y := by
  by_contra h
  push_neg at h
  nlinarith [Y_sq_lo, Y_pos, mul_lt_mul_of_pos_left h Y_pos]

lemma Y_hi : Y ≤ (0.8517 : ℝ) := by
  nlinarith [Y_sq_hi, Y_pos]

/-- Stripping the attached color/position recovers exactly the buffers
that were passed in. -/
lemma attachFaces_map_faces (colors : List ℝ) (position : V3) :
    ∀ (n : ℕ) (L : List (List ℝ)),
      (attachFaces colors position n L).map FaceProps.faces = L := by
  intro n L
  induction L generalizing n with
  | nil => rfl
  | cons f rest ih => simp [attachFaces, ih]


/-- A distance whose squared value is 1 equals 1. -/
lemma dist3_eq_one (a b : V3)
    (h : (a.x - b.x) ^ 2 + (a.y - b.y) ^ 2 + (a.z - b.z) ^ 2 = 1) : dist3 a b = 1 := by
  rw [dist3, h]
  exact Real.sqrt_one


/-! ### Claim theorems -/

/-- **C1.** The acute vertex generator emits exactly 8 vertices, in
order A, B, C, D, S, T, U, V, with the coordinates the spec states
(A = (X, Q, -H/2), ..., with BT = BE/cos(GAMMA), H = sqrt(1 - BT^2),
Q = BT/2). -/
theorem acute_vertices_match_spec_layout :
    ACUTE_VERTICES.length = 8 ∧ ACUTE_VERTICES = specAcuteLayout := by
  refine ⟨rfl, ?_⟩
  have hb : BE / Real.cos GAMMA = BT := rfl
  have hh : Real.sqrt (1 - BT ^ 2) = ACUTE.H := by
    show _ = Real.sqrt (1 - BT * BT)
    norm_num [pow_two]
  have hq : BT / 2 = ACUTE.Q := rfl
  simp only [specAcuteLayout, ACUTE_VERTICES, hb, hh, hq]
  norm_num [neg_div]

/-- **C2.** The obtuse vertex generator emits exactly 8 vertices, in
order A, B, C, D, T, U, V, S, with the coordinates the spec states
(with AT = BE/Y, H = sqrt(1 - AT^2), Q = X - AT/2). -/
theorem obtuse_vertices_match_spec_layout :
    OBTUSE_VERTICES.length = 8 ∧ OBTUSE_VERTICES = specObtuseLayout := by
  refine ⟨rfl, ?_⟩
  have hb : BE / Y = AT := rfl
  have hh : Real.sqrt (1 - AT ^ 2) = OBTUSE.H := by
    show _ = Real.sqrt (1 - AT * AT)
    norm_num [pow_two]
  have hq : X - AT / 2 = OBTUSE.Q := rfl
  simp only [specObtuseLayout, OBTUSE_VERTICES, hb, hh, hq]
  norm_num [neg_div]

/-- **C3.** For each variant the triangulator yields exactly 6 faces of
18 reals each, and each face is the flattening of the spec's
vertex-index triples over the generator's vertex array. -/
theorem createFaces_matches_spec_triples :
    (createFaces "ACUTE").length = 6 ∧ (createFaces "OBTUSE").length = 6 ∧
    (createFaces "ACUTE").map List.length = [18, 18, 18, 18, 18, 18] ∧
    (createFaces "OBTUSE").map List.length = [18, 18, 18, 18, 18, 18] ∧
    createFaces "ACUTE" = triplesFlatten ACUTE_VERTICES specAcuteTriples ∧
    createFaces "OBTUSE" = triplesFlatten OBTUSE_VERTICES specObtuseTriples :=
  ⟨rfl, rfl, rfl, rfl, rfl, rfl⟩

/-- **C5.** In each variant's face table, every one of the 8 vertex
indices occurs in exactly 3 of the 6 faces. -/
theorem each_vertex_in_three_faces :
    ∀ i : Fin 8,
      (acuteFaceIndices.filter (fun f => f.contains (i : ℕ))).length = 3 ∧
      (obtuseFaceIndices.filter (fun f => f.contains (i : ℕ))).length = 3 := by
  decide

/-- **C9 counterexample.** The selector `"HEXAGON"` is not a recognized
variant, yet `createFaces` raises no error and silently produces the
obtuse mesh. -/
theorem unknown_selector_silently_obtuse :
    createFaces "HEXAGON" = createFaces "OBTUSE" ∧
    ("HEXAGON" : String) ≠ "ACUTE" ∧ ("HEXAGON" : String) ≠ "OBTUSE" :=
  ⟨rfl, by decide, by decide⟩

/-- **C9 amended.** Every selector other than `"ACUTE"` (including any
unrecognized value) produces the obtuse mesh; no failure occurs. -/
theorem nonacute_selector_defaults_obtuse (s : String) (hs : s ≠ "ACUTE") :
    createFaces s = createFaces "OBTUSE" := by
  simp only [createFaces, if_neg hs, if_neg (show ¬("OBTUSE" = "ACUTE") by decide)]

/-- Witness for `nonacute_selector_defaults_obtuse` at selector `"PRISM"`. -/
theorem nonacute_selector_defaults_obtuse_witness :
    createFaces "PRISM" = createFaces "OBTUSE" :=
  nonacute_selector_defaults_obtuse "PRISM" (by decide)

/-- **C10.** The two variants' intermediate projections coincide:
`BT = AT = cos(THETA)`, hence `ACUTE.H = OBTUSE.H = sin(THETA)` and
`ACUTE.Q = OBTUSE.Q = cos(THETA) / 2`. -/
theorem variant_constants_coincide :
    BT = AT ∧ BT = Real.cos THETA ∧
    ACUTE.H = OBTUSE.H ∧ ACUTE.H = Real.sin THETA ∧
    ACUTE.Q = OBTUSE.Q ∧ ACUTE.Q = Real.cos THETA / 2 :=
  ⟨BT_eq.trans AT_eq.symm, BT_eq,
   ACUTE_H_eq.trans OBTUSE_H_eq.symm, ACUTE_H_eq,
   ACUTE_Q_eq.trans OBTUSE_Q_eq.symm, ACUTE_Q_eq⟩

/-- **C7 counterexample.** Both derived heights are about `0.85065`,
far outside the tolerance `1e-3` of the claimed values `0.6180`
(acute) and `0.3568` (obtuse). -/
theorem heights_far_from_claimed_values :
    ¬(|ACUTE.H - 0.6180| ≤ 1e-3) ∧ ¬(|OBTUSE.H - 0.3568| ≤ 1e-3) := by
  have h1 := Y_lo
  constructor
  · rw [not_le, ACUTE_H_eq]
    calc (1e-3 : ℝ) < Y - 0.6180 := by linarith
    _ ≤ |Y - 0.6180| := le_abs_self _
  · rw [not_le, OBTUSE_H_eq]
    calc (1e-3 : ℝ) < Y - 0.3568 := by linarith
    _ ≤ |Y - 0.3568| := le_abs_self _

/-- **C7 amended.** Both derived heights lie in the open interval
(0, 1), and both are within `1e-3` of `0.8507` (they are both exactly
`sin(THETA) ≈ 0.850651`). -/
theorem heights_in_unit_interval_near_0_8507 :
    0 < ACUTE.H ∧ ACUTE.H < 1 ∧ 0 < OBTUSE.H ∧ OBTUSE.H < 1 ∧
    |ACUTE.H - 0.8507| ≤ 1e-3 ∧ |OBTUSE.H - 0.8507| ≤ 1e-3 := by
  rw [ACUTE_H_eq, OBTUSE_H_eq]
  have h1 := Y_lo
  have h2 := Y_hi
  refine ⟨Y_pos, by linarith, Y_pos, by linarith, ?_, ?_⟩ <;>
    · rw [abs_le]
      constructor <;> linarith

/-- **C8.** For every variant selector and scale factor `k`, the `Shape`
assembly's vertex buffers are the triangulator's buffers with every
coordinate multiplied by exactly `k`; with `k = 1` they are identical
to the triangulator's output. -/
theorem shape_scales_every_coordinate :
    ∀ (shape : String) (k : ℝ) (colors : List ℝ) (position : V3),
      (Shape colors position k shape).map FaceProps.faces =
        (createFaces shape).map (List.map (fun c => c * k)) ∧
      (Shape colors position 1 shape).map FaceProps.faces = createFaces shape := by
  intro shape k colors position
  constructor
  · unfold Shape
    rw [attachFaces_map_faces]
  · unfold Shape
    rw [attachFaces_map_faces]
    simp [mul_one]

/-- **C6.** Each variant's faces determine exactly 12 edges (pairs of
vertex indices that are a triangle side of at least two faces), and
before any scaling every such edge has length 1, within `1e-9`. -/
theorem twelve_edges_unit_length :
    (edgesOf acuteFaceIndices).length = 12 ∧
    (edgesOf obtuseFaceIndices).length = 12 ∧
    (∀ p ∈ edgesOf acuteFaceIndices,
      |dist3 (vAt ACUTE_VERTICES p.1) (vAt ACUTE_VERTICES p.2) - 1| ≤ 1e-9) ∧
    (∀ p ∈ edgesOf obtuseFaceIndices,
      |dist3 (vAt OBTUSE_VERTICES p.1) (vAt OBTUSE_VERTICES p.2) - 1| ≤ 1e-9) := by
  have hAe : edgesOf acuteFaceIndices =
      [(0,1),(0,3),(0,4),(1,2),(1,5),(2,3),(2,6),(3,7),(4,5),(4,7),(5,6),(6,7)] := by decide
  have hOe : edgesOf obtuseFaceIndices =
      [(0,1),(0,3),(0,4),(1,2),(1,5),(2,3),(2,6),(3,7),(4,5),(4,7),(5,6),(6,7)] := by decide
  refine ⟨by rw [hAe]; rfl, by rw [hOe]; rfl, ?_, ?_⟩
  · rw [hAe]
    intro p hp
    fin_cases hp <;>
    · rw [dist3_eq_one _ _ (by
        simp only [vAt, ACUTE_VERTICES, ACUTE_H_eq, ACUTE_Q_eq]
        norm_num [List.getD]
        linear_combination pythXY)]
      norm_num
  · rw [hOe]
    intro p hp
    fin_cases hp <;>
    · rw [dist3_eq_one _ _ (by
        simp only [vAt, OBTUSE_VERTICES, OBTUSE_H_eq, OBTUSE_Q_eq]
        norm_num [List.getD]
        linear_combination pythXY)]
      norm_num

/-- Witness for `twelve_edges_unit_length`: the edge `(0, 1)` of each
variant has unit length. -/
theorem twelve_edges_unit_length_witness :
    |dist3 (vAt ACUTE_VERTICES 0) (vAt ACUTE_VERTICES 1) - 1| ≤ 1e-9 ∧
    |dist3 (vAt OBTUSE_VERTICES 0) (vAt OBTUSE_VERTICES 1) - 1| ≤ 1e-9 :=
  ⟨twelve_edges_unit_length.2.2.1 (0, 1) (by decide),
   twelve_edges_unit_length.2.2.2 (0, 1) (by decide)⟩

set_option maxHeartbeats 4000000 in
/-- **C4.** For both variants, each of the two triangles of each of the
6 faces winds outward: its right-hand-rule normal has strictly positive
dot product with the vector from the solid's centroid to the face's
centroid. -/
theorem faces_wind_outward :
    ∀ (j : Fin 6) (t : Fin 2),
      outwardTri ACUTE_VERTICES (faceOf acuteFaceIndices j) t ∧
      outwardTri OBTUSE_VERTICES (faceOf obtuseFaceIndices j) t := by
  intro j t
  fin_cases j <;> fin_cases t <;>
    refine ⟨?_, ?_⟩ <;>
    · norm_num [outwardTri, triAt, faceOf, faceCentroid, solidCentroid, centroid, triNormal,
        cross, vsub, dot, vAt, List.getD, acuteFaceIndices, obtuseFaceIndices,
        ACUTE_VERTICES, OBTUSE_VERTICES, ACUTE_H_eq, ACUTE_Q_eq, OBTUSE_H_eq, OBTUSE_Q_eq]
      nlinarith [X_pos, Y_pos, mul_pos X_pos (mul_pos Y_pos Y_pos)]
